import Mathlib

/-!
# A shallow embedding of `suspect.c`

`suspect` is a black-box test-execution engine: it reads a script of blocks,
each block spawning a child program and driving it with commands
(`exit`, `want`, `send`, `exists`, `size>`, `echo`, `endinput`,
`interactive`, `limit`).  This file embeds the program's pure logic in Lean
and proves properties of it.

Modelling conventions:

* Byte streams (the script source, the child's output pipe, the run's
  standard input) are `List Char`; `get_line` is translated from the C
  `get_line` (the 8-byte buffering is an implementation detail that does not
  change the returned line, but the `NULL`-at-EOF behaviour is kept exactly:
  the C function returns `NULL` iff `fgetc` hits EOF before any character
  was read in this call).
* The operating system is an oracle: each spawned child is described by a
  `ChildBehavior` (whether `execvp` succeeded, the bytes it writes to its
  output pipe, the raw `wait` status, and whether writes to its input pipe
  succeed).  `wait` statuses use the Linux encoding: `WIFEXITED(s)` is
  `(s & 0x7f) == 0`, written here as `s % 128 = 0`, and the code compares
  `s >> 8`, written here as `s / 256`.
* `fprintf(writePipe, message)` in `handle_send` treats the message as a
  printf format string.  `formatOut` models the format interpretation for a
  call with no variadic arguments: ordinary characters are copied, `%%`
  produces `%`, and every other directive is undefined behaviour (`none`).
* The signal handlers installed by `main` are part of the modelled
  behaviour: a `NULL` line in `handle_want` dereferences `NULL` in `strcmp`,
  which on the target platform raises `SIGSEGV`; `handle_sigs` turns this
  into the command failure at the current line.  Likewise a failed `execvp`
  raises `SIGUSR1` in the parent, which reports a command failure at the
  invocation's line.
-/

namespace Suspect

/-! ## Error codes and diagnostics (`throw_error`, suspect.c:36-58) -/

def ERR_COMMAND : Nat := 1
def ERR_BLOCK : Nat := 2
def ERR_LIMIT : Nat := 3
def ERR_OPEN : Nat := 4

/-- Diagnostic printed by `throw_error` for `ERR_COMMAND`. -/
def cmdFailMsg (i : Nat) : String :=
  "Test failed on line " ++ toString i ++ "."

/-- Diagnostic printed by `throw_error` for `ERR_BLOCK`. -/
def blockFailMsg (i : Nat) : String :=
  "Block " ++ toString i ++ " ended without an exit."

/-! ## Line reading (`get_line`, suspect.c:179-216)

The C function accumulates characters until `'\n'` (which is consumed and
not stored), returns `NULL` when `fgetc` yields EOF before any character was
read in this call, and returns the accumulated characters when EOF is hit
mid-line. -/

/-- Translated from `get_line` (suspect.c:179-216): returns `none` at
end-of-stream with no pending characters, otherwise the line (without its
terminator) and the remaining stream. -/
def get_line : List Char → Option (String × List Char)
  | [] => none
  | c :: cs =>
    if c = '\n' then some ("", cs)
    else
      match get_line cs with
      | none => some (String.mk [c], [])
      | some (l, r) => some (String.mk (c :: l.data), r)

theorem get_line_shrinks {cs : List Char} {l : String} {r : List Char}
    (h : get_line cs = some (l, r)) : r.length < cs.length := by
  induction cs generalizing l r with
  | nil => simp [get_line] at h
  | cons c cs ih =>
    by_cases hc : c = '\n'
    · simp only [get_line, if_pos hc] at h
      obtain ⟨-, rfl⟩ := Prod.mk.injEq .. ▸ Option.some.injEq .. ▸ h
      exact Nat.lt_succ_self _
    · simp only [get_line, if_neg hc] at h
      cases hg : get_line cs with
      | none =>
        rw [hg] at h
        obtain ⟨-, rfl⟩ := Prod.mk.injEq .. ▸ Option.some.injEq .. ▸ h
        exact Nat.succ_pos _
      | some p =>
        rw [hg] at h
        obtain ⟨-, rfl⟩ := Prod.mk.injEq .. ▸ Option.some.injEq .. ▸ h
        exact Nat.lt_succ_of_lt (ih hg)

/-! ## `sscanf` models -/

/-- Whitespace as recognized by `isspace` (what `%d`/`%s` skip). -/
def isSpaceC (c : Char) : Bool :=
  c == ' ' || c == '\t' || c == '\n' || c == '\r' || c == '\x0b' || c == '\x0c'

/-- Value of a run of decimal digits. -/
def digitsToNat (ds : List Char) : Nat :=
  ds.foldl (fun a c => a * 10 + (c.toNat - 48)) 0

/-- Model of a `%d` conversion: skip whitespace, optional sign, at least one
digit; `none` on matching failure (which makes `sscanf` return `0` or `EOF`,
hence `< 1`). -/
def scanInt (cs : List Char) : Option (Int × List Char) :=
  let t := cs.dropWhile isSpaceC
  match t with
  | '-' :: rest =>
    let ds := rest.takeWhile Char.isDigit
    if ds.isEmpty then none
    else some (-(digitsToNat ds : Int), rest.dropWhile Char.isDigit)
  | '+' :: rest =>
    let ds := rest.takeWhile Char.isDigit
    if ds.isEmpty then none
    else some ((digitsToNat ds : Int), rest.dropWhile Char.isDigit)
  | rest =>
    let ds := rest.takeWhile Char.isDigit
    if ds.isEmpty then none
    else some ((digitsToNat ds : Int), rest.dropWhile Char.isDigit)

/-- Model of `sscanf(s, "%d%c", &n, &delim)` with `delim` initialized to
`'\0'`: `none` when the `%d` conversion fails; otherwise the integer and the
character directly after it (`'\0'` when the string is exhausted, exactly as
the initialized `delimiter` is left untouched when `sscanf` returns `1`). -/
def scan_d_c (s : String) : Option (Int × Char) :=
  match scanInt s.data with
  | none => none
  | some (n, rest) => some (n, rest.headD '\x00')

/-- Model of a `%s` conversion: skip whitespace, then a non-empty run of
non-whitespace characters; `none` on matching failure. -/
def firstToken (s : String) : Option String :=
  let t := (s.data.dropWhile isSpaceC).takeWhile (fun c => !isSpaceC c)
  if t.isEmpty then none else some (String.mk t)

/-- Model of `sscanf(s, "%d %s", &n, buf)` succeeding (returning `2`). -/
def scan_d_s (s : String) : Option (Int × String) :=
  match scanInt s.data with
  | none => none
  | some (n, rest) =>
    let t := (rest.dropWhile isSpaceC).takeWhile (fun c => !isSpaceC c)
    if t.isEmpty then none else some (n, String.mk t)

/-! ## `fprintf` format-string model

`handle_send` (suspect.c:290) passes the user-controlled message directly as
the format string of `fprintf`.  With no variadic arguments, `%%` is the
only defined directive; anything else after a `%` is undefined behaviour. -/

/-- Output of `fprintf(stream, fmt)` called with no variadic arguments:
`none` marks undefined behaviour. -/
def formatOut : List Char → Option (List Char)
  | [] => some []
  | '%' :: '%' :: rest => (formatOut rest).map (fun l => '%' :: l)
  | '%' :: _ => none
  | c :: rest => (formatOut rest).map (fun l => c :: l)

/-! ## Child termination statuses

`wait(&childStatus)` stores the raw status; the code then tests
`WIFEXITED(childStatus)` — on Linux `(status & 0x7f) == 0`, i.e.
`status % 128 = 0` — and compares `childStatus >> 8`, i.e.
`status / 256`, with the expected code. -/

/-- Abstract way a child process can terminate. -/
inductive ChildTermination where
  | exited (code : Nat)
  | signaled (sig : Nat) (core : Bool)
deriving DecidableEq

/-- Well-formed terminations: exit codes are reported modulo 256, and
terminating signals lie strictly between 0 and 0x7f. -/
def TermValid : ChildTermination → Prop
  | ChildTermination.exited code => code < 256
  | ChildTermination.signaled sig _ => 1 ≤ sig ∧ sig ≤ 126

/-- The raw `wait` status for a termination (Linux encoding): a normal exit
with code `c` is `c << 8`; death by signal `sig` is `sig`, with bit 0x80 set
when a core was dumped. -/
def encodeStatus : ChildTermination → Nat
  | ChildTermination.exited code => code * 256
  | ChildTermination.signaled sig core => sig + (if core then 128 else 0)

/-! ## Command handlers (suspect.c:224-445) -/

/-- The parameter guard of `handle_exit` (suspect.c:239-240): `params` must
be present, `sscanf("%d%c")` must convert the integer, the integer must not
be negative, and the delimiter must be a space or the end of the string. -/
def exitParamValue (params : Option String) : Option Int :=
  match params with
  | none => none
  | some p =>
    match scan_d_c p with
    | none => none
    | some (n, d) =>
      if n < 0 ∨ ¬(d = ' ' ∨ d = '\x00') then none else some n

/-- Translated from `handle_exit` (suspect.c:228-254).  Returns the handler
result (`1` pass, `-1` fail) and the updated `sawExit` flag; `status` is the
raw status stored by `wait`.  Note `sawExit` is only set once the parameter
guard has passed, exactly as in the C code. -/
def handle_exit (sawExit : Bool) (params : Option String) (status : Nat) :
    Int × Bool :=
  if sawExit then (-1, sawExit)
  else
    match exitParamValue params with
    | none => (-1, sawExit)
    | some n =>
      if status % 128 = 0 ∧ (Int.ofNat (status / 256)) = n then (1, true)
      else (-1, true)

/-- Result of `handle_want`: `echoed` is the line printed when echo is on
(the C code prints before comparing, so a mismatching line is still echoed);
`segvAbort` is the `NULL` line case, where `strcmp(NULL, params)`
dereferences `NULL` and the installed `SIGSEGV` handler aborts the run (with
echo on, glibc's `printf("%s\n", NULL)` first prints `(null)`). -/
inductive WantRes where
  | pass (echoed : Option String) (rest : List Char)
  | fail (echoed : Option String) (rest : List Char)
  | segvAbort (echoed : Option String)
deriving DecidableEq

/-- Translated from `handle_want` (suspect.c:258-275), reading from the
child-output stream `stream`. -/
def handle_want (params : Option String) (echo : Bool) (stream : List Char) :
    WantRes :=
  match params with
  | none => WantRes.fail none stream
  | some p =>
    match get_line stream with
    | none => WantRes.segvAbort (if echo then some "(null)" else none)
    | some (l, rest) =>
      let e := if echo then some l else none
      if l ≠ p then WantRes.fail e rest else WantRes.pass e rest

/-- Result of `handle_send`: `pass` carries the bytes actually written to
the child's input pipe; `undef` marks the undefined behaviour of an invalid
or argument-consuming format directive in the message. -/
inductive SendRes where
  | fail
  | pass (written : List Char)
  | undef
deriving DecidableEq

/-- Translated from `handle_send` (suspect.c:280-296): builds
`message = params ++ "\n"` and hands it to `fprintf(writePipe, message)` as
the format string; `ioOk` is the oracle for the `fprintf`/`fflush` error
checks. -/
def handle_send (params : Option String) (ioOk : Bool) : SendRes :=
  match params with
  | none => SendRes.fail
  | some p =>
    match formatOut (p.data ++ ['\n']) with
    | none => SendRes.undef
    | some bytes => if ioOk then SendRes.pass bytes else SendRes.fail

/-- Translated from `handle_exists` (suspect.c:299-313); `acc` is the
`access(path, F_OK)` oracle (`true` when the call succeeds). -/
def handle_exists (params : Option String) (acc : String → Bool) : Int :=
  match params with
  | none => -1
  | some p => if acc p then 4 else -1

/-- Translated from `handle_size` (suspect.c:317-344); `fsSize` is the
`stat` oracle (`none` when `stat` fails, otherwise `st_size`). -/
def handle_size (params : Option String) (fsSize : String → Option Int) :
    Int :=
  match params with
  | none => -1
  | some p =>
    match scan_d_s p with
    | none => -1
    | some (n, path) =>
      match fsSize path with
      | none => -1
      | some sz => if sz ≤ n then -1 else 5

/-- Translated from `handle_echo` (suspect.c:349-378): returns the handler
result and the updated echo flag. -/
def handle_echo (params : Option String) (echo : Bool) : Int × Bool :=
  match params with
  | none => (-1, echo)
  | some p =>
    match firstToken p with
    | none => (-1, echo)
    | some t =>
      if t ≠ "on" ∧ t ≠ "off" then (-1, echo)
      else if t = "on" then (6, true) else (6, false)

/-- The parameter guard of `handle_limit` (suspect.c:437-438).  Unlike the
guard in `handle_exit`, the C code has no `n < 0` test here, so any integer
that `%d` converts, negative included, is accepted. -/
def limitParamValue (params : Option String) : Option Int :=
  match params with
  | none => none
  | some p =>
    match scan_d_c p with
    | none => none
    | some (n, d) =>
      if d ≠ ' ' ∧ d ≠ '\x00' then none else some n

/-- Translated from `handle_limit` (suspect.c:426-445): returns the handler
result, the updated `sawLimit` flag, and the argument passed to `alarm`
(`alarm` takes an `unsigned int`, so `n` is reduced modulo `2^32`); the
alarm argument is `none` when `alarm` was not called. -/
def handle_limit (sawLimit : Bool) (params : Option String) :
    Int × Bool × Option Nat :=
  if sawLimit then (-1, sawLimit, none)
  else
    match limitParamValue params with
    | none => (-1, sawLimit, none)
    | some n => (9, true, some ((n % (4294967296 : Int)).toNat))

/-- Translated from the loop of `handle_interactive` (suspect.c:409-417):
reads lines from the run's standard input until end-of-stream or a line
equal to `word`, forwarding every other line through `handle_send` and —
exactly as the C code does — discarding each send's result.  Returns the
list of send results and the remaining standard input.  The recursion is
bounded by a fuel argument; `get_line` consumes at least one byte per
returned line, so any fuel exceeding the stream length gives the loop's
true behaviour (`interactiveLoop_fuel` below makes this exact). -/
def interactiveLoop (word : String) (ioOk : Bool) :
    Nat → List Char → List SendRes × List Char
  | 0, cs => ([], cs)
  | fuel + 1, cs =>
    match get_line cs with
    | none => ([], cs)
    | some (l, rest) =>
      if l = word then ([], rest)
      else
        let r := interactiveLoop word ioOk fuel rest
        (handle_send (some l) ioOk :: r.fst, r.snd)

/-- Any two sufficient fuels agree, so `interactiveLoop` with fuel
`cs.length + 1` is the C loop. -/
theorem interactiveLoop_fuel (word : String) (ioOk : Bool) :
    ∀ (f₁ f₂ : Nat) (cs : List Char), cs.length < f₁ → cs.length < f₂ →
      interactiveLoop word ioOk f₁ cs = interactiveLoop word ioOk f₂ cs := by
  intro f₁
  induction f₁ with
  | zero => intro f₂ cs h₁ _; omega
  | succ f ih =>
    intro f₂ cs h₁ h₂
    cases f₂ with
    | zero => omega
    | succ g =>
      simp only [interactiveLoop]
      cases hg : get_line cs with
      | none => rfl
      | some p =>
        obtain ⟨l, rest⟩ := p
        have hlt := get_line_shrinks hg
        by_cases hw : l = word
        · simp [hw]
        · simp only [if_neg hw]
          rw [ih g rest (by omega) (by omega)]

/-- Translated from `handle_interactive` (suspect.c:393-422): returns the
handler result, the results of the forwarded sends, and the remaining
standard input.  The C function returns `8` whenever its parameter parses,
no matter how the sends fared. -/
def handle_interactive (params : Option String) (ioOk : Bool)
    (stdinStream : List Char) : Int × List SendRes × List Char :=
  match params with
  | none => (-1, [], stdinStream)
  | some p =>
    match firstToken p with
    | none => (-1, [], stdinStream)
    | some w =>
      let r := interactiveLoop w ioOk (stdinStream.length + 1) stdinStream
      (8, r.fst, r.snd)

/-! ## The run model (`parse_input` and `main`, suspect.c:482-562)

`parse_input` pulls lines from the script, spawns a child on the first line
of every block, dispatches the remaining non-blank lines through
`handle_command`, and tears the block down on its blank line.  The state
below carries exactly the globals of suspect.c together with the oracle
describing the outside world. -/

/-- Oracle describing one spawned child process: whether `execvp` found the
program, the bytes the child writes to its output pipe, the raw status
`wait` reports, and whether writes to its input pipe succeed. -/
structure ChildBehavior where
  execOk : Bool
  out : List Char
  status : Nat
  sendOk : Bool

/-- The world outside the run: the children the script will spawn (in
order), the run's standard input (read by `interactive`), and the
filesystem oracles used by `exists` and `size>`. -/
structure World where
  children : List ChildBehavior := []
  stdinBytes : List Char := []
  fsAccess : String → Bool := fun _ => false
  fsSize : String → Option Int := fun _ => none

/-- The globals of suspect.c (lines 22-33) plus the per-block view of the
world.  `childAlive` models `pid != -1`, `readOpen`/`writeOpen` model the
two `FILE*` pipe ends, `timer` models a pending `alarm`, `output` collects
everything printed to the run's standard output so far (echoed lines). -/
structure RunState where
  blockCount : Nat
  lineCount : Nat
  sawExit : Bool
  sawLimit : Bool
  echo : Bool
  previousBlock : Nat
  childAlive : Bool
  readOpen : Bool
  writeOpen : Bool
  timer : Bool
  childOut : List Char
  curStatus : Nat
  curSendOk : Bool
  pendingChildren : List ChildBehavior
  stdinRest : List Char
  fsAccess : String → Bool
  fsSize : String → Option Int
  output : List String

/-- Translated from the tokenization in `parse_input` (suspect.c:506-510):
`strtok(line, " \n")` skips leading delimiters and yields the command name;
the following `strtok(NULL, "\n")` yields everything after the command's
terminating delimiter, verbatim (leading/inner spaces preserved), or `NULL`
when nothing follows.  The command is `none` when the line holds only
delimiters (C then calls `strcmp(NULL, …)`). -/
def splitLine (line : String) : Option String × Option String :=
  let cs := line.data.dropWhile (fun c => c == ' ' || c == '\n')
  let cmd := cs.takeWhile (fun c => !(c == ' ' || c == '\n'))
  let rest := cs.dropWhile (fun c => !(c == ' ' || c == '\n'))
  let params :=
    match rest with
    | [] => none
    | _ :: r => if r.isEmpty then none else some (String.mk r)
  (if cmd.isEmpty then none else some (String.mk cmd), params)

/-- Translated from the block-end branch of `parse_input`
(suspect.c:520-527): kill the child (`pid = -1`), close both pipes, cancel
the timer, reset the per-block flags, record the finished block and advance
the block counter. -/
def blockTeardown (s : RunState) : RunState :=
  { s with
    childAlive := false
    readOpen := false
    writeOpen := false
    timer := false
    sawLimit := false
    sawExit := false
    previousBlock := s.blockCount
    blockCount := s.blockCount + 1 }

/-- Outcome of processing one script line: continue in a new state, stop the
whole run with an exit status and a diagnostic (the `throw_error` paths), or
reach undefined behaviour. -/
inductive StepRes where
  | ok (s : RunState)
  | halt (code : Nat) (out : List String) (diag : String)
  | undef

/-- The default `ChildBehavior` used when the world runs out of children. -/
def defaultChild : ChildBehavior :=
  { execOk := true, out := [], status := 0, sendOk := true }

/-- Translated from the body of `parse_input`'s while loop
(suspect.c:489-528), with `handle_sigs` (suspect.c:536-547) supplying the
behaviour of the signal-mediated paths: a failed `execvp` (`SIGUSR1`, which
decrements the line counter the parent had already advanced) and the
`NULL`-line dereference in `handle_want` (`SIGSEGV`) both end the run as a
command failure.  The `++lineCount` at the loop's bottom is applied by
`runFrom`. -/
def stepLine (s : RunState) (line : String) : StepRes :=
  if line = "" then
    if s.sawExit then StepRes.ok (blockTeardown s)
    else StepRes.halt ERR_BLOCK s.output (blockFailMsg s.blockCount)
  else if s.previousBlock ≠ s.blockCount then
    if line.data.head? = some ' ' then
      StepRes.halt ERR_COMMAND s.output (cmdFailMsg s.lineCount)
    else
      let b := s.pendingChildren.headD defaultChild
      if b.execOk then
        StepRes.ok
          { s with
            previousBlock := s.blockCount
            childAlive := true
            readOpen := true
            writeOpen := true
            childOut := b.out
            curStatus := b.status
            curSendOk := b.sendOk
            pendingChildren := s.pendingChildren.tail }
      else StepRes.halt ERR_COMMAND s.output (cmdFailMsg s.lineCount)
  else
    match splitLine line with
    | (none, _) => StepRes.halt ERR_COMMAND s.output (cmdFailMsg s.lineCount)
    | (some cmd, params) =>
      if cmd = "exit" then
        let r := handle_exit s.sawExit params s.curStatus
        if r.fst = -1 then
          StepRes.halt ERR_COMMAND s.output (cmdFailMsg s.lineCount)
        else StepRes.ok { s with sawExit := r.snd }
      else if cmd = "want" then
        match handle_want params s.echo s.childOut with
        | WantRes.pass e rest =>
          StepRes.ok { s with childOut := rest, output := s.output ++ e.toList }
        | WantRes.fail e _ =>
          StepRes.halt ERR_COMMAND (s.output ++ e.toList) (cmdFailMsg s.lineCount)
        | WantRes.segvAbort e =>
          StepRes.halt ERR_COMMAND (s.output ++ e.toList) (cmdFailMsg s.lineCount)
      else if cmd = "send" then
        match handle_send params s.curSendOk with
        | SendRes.fail => StepRes.halt ERR_COMMAND s.output (cmdFailMsg s.lineCount)
        | SendRes.undef => StepRes.undef
        | SendRes.pass _ => StepRes.ok s
      else if cmd = "exists" then
        if handle_exists params s.fsAccess = -1 then
          StepRes.halt ERR_COMMAND s.output (cmdFailMsg s.lineCount)
        else StepRes.ok s
      else if cmd = "size>" then
        if handle_size params s.fsSize = -1 then
          StepRes.halt ERR_COMMAND s.output (cmdFailMsg s.lineCount)
        else StepRes.ok s
      else if cmd = "echo" then
        let r := handle_echo params s.echo
        if r.fst = -1 then
          StepRes.halt ERR_COMMAND s.output (cmdFailMsg s.lineCount)
        else StepRes.ok { s with echo := r.snd }
      else if cmd = "endinput" then
        StepRes.ok { s with writeOpen := false }
      else if cmd = "interactive" then
        let r := handle_interactive params s.curSendOk s.stdinRest
        if SendRes.undef ∈ r.snd.fst then StepRes.undef
        else if r.fst = -1 then
          StepRes.halt ERR_COMMAND s.output (cmdFailMsg s.lineCount)
        else StepRes.ok { s with stdinRest := r.snd.snd }
      else if cmd = "limit" then
        let r := handle_limit s.sawLimit params
        if r.fst = -1 then
          StepRes.halt ERR_COMMAND s.output (cmdFailMsg s.lineCount)
        else
          StepRes.ok { s with sawLimit := r.snd.fst, timer := r.snd.snd.getD 0 != 0 }
      else StepRes.halt ERR_COMMAND s.output (cmdFailMsg s.lineCount)

/-- Result of a whole run: `done exit echoed diag` is process termination
with the given exit status, the lines echoed to standard output and the
diagnostic, if any (`throw_error` prints exactly one). -/
inductive RunResult where
  | done (exitStatus : Nat) (echoed : List String) (diag : Option String)
  | undef
deriving DecidableEq

/-- The `while((line = get_line(input)) != NULL)` loop of `parse_input`
followed by `return 0` in `main`: processing stops at the first
`throw_error`; plain end-of-input simply leaves the loop and `main` returns
`0`.  The `++lineCount` at the loop's bottom (suspect.c:501/531) is applied
here after every successful step. -/
def runFrom : RunState → List String → RunResult
  | s, [] => RunResult.done 0 s.output none
  | s, l :: ls =>
    match stepLine s l with
    | StepRes.ok t => runFrom { t with lineCount := t.lineCount + 1 } ls
    | StepRes.halt c out d => RunResult.done c out (some d)
    | StepRes.undef => RunResult.undef

/-- The initial values of the globals (suspect.c:22-33) paired with a
world. -/
def initState (w : World) : RunState :=
  { blockCount := 1
    lineCount := 1
    sawExit := false
    sawLimit := false
    echo := false
    previousBlock := 0
    childAlive := false
    readOpen := false
    writeOpen := false
    timer := false
    childOut := []
    curStatus := 0
    curSendOk := true
    pendingChildren := w.children
    stdinRest := w.stdinBytes
    fsAccess := w.fsAccess
    fsSize := w.fsSize
    output := [] }

/-- A whole run of `main` on a script already split into lines. -/
def runScript (w : World) (lines : List String) : RunResult :=
  runFrom (initState w) lines

/-- One full loop iteration: `stepLine` followed by the `++lineCount` at the
loop's bottom; `none` when the iteration ends the run. -/
def stepNext (s : RunState) (line : String) : Option RunState :=
  match stepLine s line with
  | StepRes.ok t => some { t with lineCount := t.lineCount + 1 }
  | _ => none

/-- Big-step: every listed line is processed without ending the run. -/
inductive StepsOk : RunState → List String → RunState → Prop where
  | nil (s : RunState) : StepsOk s [] s
  | cons (s : RunState) (l : String) (s₁ : RunState) (ls : List String)
      (s₂ : RunState) (h : stepNext s l = some s₁)
      (hs : StepsOk s₁ ls s₂) : StepsOk s (l :: ls) s₂

/-- A well-formed block that fully succeeds: a non-blank invocation line the
engine accepts (the child spawns), command lines that are non-blank and all
succeed, an exit command among them (`sawExit` holds at the end), and the
terminating blank line, which the engine then accepts. -/
inductive GoodBlock : RunState → List String → RunState → Prop where
  | mk (s : RunState) (inv : String) (s₁ : RunState) (cmds : List String)
      (s₂ s₃ : RunState)
      (hinv : inv ≠ "")
      (hcmds : ∀ c ∈ cmds, c ≠ "")
      (hspawn : stepNext s inv = some s₁)
      (hsteps : StepsOk s₁ cmds s₂)
      (hexit : s₂.sawExit = true)
      (hblank : stepNext s₂ "" = some s₃) :
      GoodBlock s (inv :: (cmds ++ [""])) s₃

/-- A script made of well-formed, fully succeeding blocks. -/
inductive GoodRun : RunState → List String → Prop where
  | nil (s : RunState) : GoodRun s []
  | block (s : RunState) (b : List String) (s₁ : RunState)
      (rest : List String) (hb : GoodBlock s b s₁)
      (hrest : GoodRun s₁ rest) : GoodRun s (b ++ rest)

theorem runFrom_cons_ok {s s₁ : RunState} {l : String}
    (h : stepNext s l = some s₁) (ls : List String) :
    runFrom s (l :: ls) = runFrom s₁ ls := by
  unfold stepNext at h
  cases hs : stepLine s l with
  | ok t =>
    rw [hs] at h
    simp only [Option.some.injEq] at h
    simp only [runFrom, hs, h]
  | halt c out d => rw [hs] at h; cases h
  | undef => rw [hs] at h; cases h

theorem runFrom_stepsOk {s s₁ : RunState} {ls : List String}
    (h : StepsOk s ls s₁) :
    ∀ rest, runFrom s (ls ++ rest) = runFrom s₁ rest := by
  induction h with
  | nil s => intro rest; rfl
  | cons s l t ls s₂ hstep hrest ih =>
    intro rest
    rw [List.cons_append, runFrom_cons_ok hstep, ih]

/-! ## Sample worlds and states used by the concrete witnesses -/

/-- A world with no children, empty standard input, empty filesystem. -/
def w0 : World := {}

/-- A world with one child whose program execs fine, writes nothing, and
exits normally with code 0. -/
def wExitZero : World :=
  { children := [{ execOk := true, out := [], status := 0, sendOk := true }] }

/-- A state in the middle of a run, just after an exit command was seen. -/
def sAfterExit : RunState :=
  { initState w0 with sawExit := true, blockCount := 2, lineCount := 7 }

/-- A state inside a block (child spawned) whose output pipe is at
end-of-stream. -/
def sWantEmpty : RunState := { initState w0 with previousBlock := 1 }

/-- The run states along the script `["prog", "exit 0", ""]` in
`wExitZero`. -/
def cS0 : RunState := initState wExitZero

def cS1 : RunState := (stepNext cS0 "prog").getD cS0

def cS2 : RunState := (stepNext cS1 "exit 0").getD cS1

def cS3 : RunState := (stepNext cS2 "").getD cS2

/-! ## The claims -/

/-- C1: for every script in which each block is well-formed (invocation
line, commands, exactly one exit command, terminating blank line) and every
command succeeds against the spawned programs, the run terminates with exit
status 0 and prints no diagnostic line — only output surfaced by echo. -/
theorem c1_wellformed_scripts_succeed (s : RunState) (lines : List String)
    (h : GoodRun s lines) :
    ∃ es, runFrom s lines = RunResult.done 0 es none := by
  induction h with
  | nil s => exact ⟨s.output, rfl⟩
  | block s b s₁ rest hb hrest ih =>
    obtain ⟨es, hes⟩ := ih
    cases hb with
    | mk inv t₁ cmds t₂ t₃ hinv hcmds hspawn hsteps hexit hblank =>
      refine ⟨es, ?_⟩
      have e1 : (inv :: (cmds ++ [""])) ++ rest = inv :: (cmds ++ ("" :: rest)) := by
        simp
      rw [e1, runFrom_cons_ok hspawn, runFrom_stepsOk hsteps ("" :: rest),
        runFrom_cons_ok hblank, hes]

/-- Witness for C1 on the script `prog / exit 0 / blank` with a child that
exits normally with code 0. -/
theorem c1_wellformed_scripts_succeed_witness :
    GoodRun cS0 ["prog", "exit 0", ""] ∧
      ∃ es, runFrom cS0 ["prog", "exit 0", ""] = RunResult.done 0 es none := by
  have hsteps : StepsOk cS1 ["exit 0"] cS2 :=
    StepsOk.cons _ _ _ _ _ rfl (StepsOk.nil _)
  have hgb : GoodBlock cS0 ["prog", "exit 0", ""] cS3 :=
    GoodBlock.mk cS0 "prog" cS1 ["exit 0"] cS2 cS3 (by decide) (by decide)
      rfl hsteps rfl rfl
  have hgr : GoodRun cS0 ["prog", "exit 0", ""] :=
    GoodRun.block cS0 ["prog", "exit 0", ""] cS3 [] hgb (GoodRun.nil cS3)
  exact ⟨hgr, c1_wellformed_scripts_succeed cS0 _ hgr⟩

/-- C2: `exit n` passes iff the child terminated normally with exit code
exactly `n`; it fails when an exit was already seen in the block, when the
parameter is missing, malformed or negative, when the child terminates
abnormally, or when the exit code differs from `n`. -/
theorem c2_exit_passes_iff (saw : Bool) (params : Option String)
    (t : ChildTermination) (hv : TermValid t) :
    (handle_exit saw params (encodeStatus t)).fst = 1 ↔
      saw = false ∧ ∃ c : Nat, t = ChildTermination.exited c ∧
        exitParamValue params = some (Int.ofNat c) := by
  cases saw with
  | true =>
    constructor
    · intro h
      rw [show handle_exit true params (encodeStatus t) = (-1, true) from rfl] at h
      norm_num at h
    · rintro ⟨h, -⟩
      exact Bool.noConfusion h
  | false =>
    cases hp : exitParamValue params with
    | none =>
      constructor
      · intro h
        simp [handle_exit, hp] at h
      · rintro ⟨-, c, -, hn⟩
        cases hn
    | some n =>
      have hrw : handle_exit false params (encodeStatus t) =
          if encodeStatus t % 128 = 0 ∧ Int.ofNat (encodeStatus t / 256) = n
            then ((1 : Int), true) else (-1, true) := by
        simp [handle_exit, hp]
      rw [hrw]
      cases t with
      | exited c =>
        have hm : encodeStatus (ChildTermination.exited c) % 128 = 0 := by
          simp only [encodeStatus]; omega
        have hd : encodeStatus (ChildTermination.exited c) / 256 = c := by
          simp only [encodeStatus]; omega
        rw [hm, hd]
        by_cases hc : Int.ofNat c = n
        · rw [if_pos ⟨rfl, hc⟩]
          refine ⟨fun _ => ⟨rfl, c, rfl, ?_⟩, fun _ => rfl⟩
          rw [hc]
        · rw [if_neg (fun hcon => hc hcon.2)]
          refine ⟨fun h => absurd h (by decide), ?_⟩
          rintro ⟨-, c', hc', hn⟩
          injection hc' with he
          subst he
          injection hn with hn2
          exact (hc hn2.symm).elim
      | signaled sig core =>
        obtain ⟨h1, h2⟩ := hv
        have hm : ¬(encodeStatus (ChildTermination.signaled sig core) % 128 = 0) := by
          simp only [encodeStatus]
          cases core <;> simp <;> omega
        rw [if_neg (fun hcon => hm hcon.1)]
        refine ⟨fun h => absurd h (by decide), ?_⟩
        rintro ⟨-, c', hc', -⟩
        cases hc'

/-- Witness for C2: `exit 0` against a child that exited normally with
code 0 passes. -/
theorem c2_exit_passes_iff_witness :
    TermValid (ChildTermination.exited 0) ∧
      (handle_exit false (some "0")
        (encodeStatus (ChildTermination.exited 0))).fst = 1 :=
  ⟨by norm_num [TermValid], (c2_exit_passes_iff false (some "0")
      (ChildTermination.exited 0) (by norm_num [TermValid])).mpr
      ⟨rfl, 0, rfl, by decide⟩⟩

/-- C3: whenever the terminating blank line of a block is reached and no
exit command has been seen in that block, the run aborts with the
block-incomplete diagnostic naming that block's ordinal and exit status 2 —
whatever else is in the state. -/
theorem c3_blank_line_without_exit_aborts (s : RunState) (rest : List String)
    (h : s.sawExit = false) :
    runFrom s ("" :: rest) =
      RunResult.done 2 s.output
        (some ("Block " ++ toString s.blockCount ++ " ended without an exit.")) := by
  simp [runFrom, stepLine, h, blockFailMsg, ERR_BLOCK]

/-- Witness for C3 at the initial state. -/
theorem c3_blank_line_without_exit_aborts_witness :
    (initState w0).sawExit = false ∧
      runFrom (initState w0) ("" :: []) =
        RunResult.done 2 (initState w0).output
          (some ("Block " ++ toString (initState w0).blockCount ++
            " ended without an exit.")) :=
  ⟨rfl, c3_blank_line_without_exit_aborts (initState w0) [] rfl⟩

/-- C4 (amended): when the script's input is exhausted, `parse_input`
simply returns and `main` exits with status 0 — even in the middle of an
open block; no block-incomplete failure is raised.  Stated for any
all-succeeding prefix of a block. -/
theorem c4_eof_midblock_terminates_zero (s : RunState) (lines : List String)
    (s₁ : RunState) (h : StepsOk s lines s₁) :
    runFrom s lines = RunResult.done 0 s₁.output none := by
  have h2 := runFrom_stepsOk h []
  rw [List.append_nil] at h2
  rw [h2]
  rfl

/-- Counterexample for C4 as stated: the script `prog / exit 0` has no
terminating blank line, so its only block is still open at end-of-input,
yet the run terminates with the success status 0 and no diagnostic. -/
theorem c4_eof_midblock_counterexample :
    runScript wExitZero ["prog", "exit 0"] = RunResult.done 0 [] none := by
  decide

/-- Witness for the amended C4. -/
theorem c4_eof_midblock_terminates_zero_witness :
    StepsOk cS0 ["prog", "exit 0"] cS2 ∧
      runFrom cS0 ["prog", "exit 0"] = RunResult.done 0 cS2.output none := by
  have hs : StepsOk cS0 ["prog", "exit 0"] cS2 :=
    StepsOk.cons _ _ _ _ _ rfl (StepsOk.cons _ _ _ _ _ rfl (StepsOk.nil _))
  exact ⟨hs, c4_eof_midblock_terminates_zero cS0 _ cS2 hs⟩

/-- C5 evidence (code bug): `handle_send` passes the message to `fprintf`
as its format string, so `send %%` writes `%` + newline — not the claimed
`%%` + newline — and the round trip against a child that echoes the
received bytes back verbatim makes `want %%` fail. -/
theorem c5_send_format_string_bug :
    handle_send (some "%%") true = SendRes.pass ['%', '\n'] ∧
      "%%".data ++ ['\n'] ≠ ['%', '\n'] ∧
      handle_want (some "%%") false ['%', '\n'] = WantRes.fail none [] := by
  refine ⟨by decide, by decide, by decide⟩

/-- C6 evidence (code bug): `handle_limit` has no `n < 0` guard (compare
`handle_exit`), so `limit -5` — first limit of its block — succeeds,
returning 9 and arming `alarm((unsigned int)(-5)) = alarm(4294967291)`,
where the claim requires a failure. -/
theorem c6_limit_accepts_negative :
    handle_limit false (some "-5") = (9, true, some 4294967291) ∧
      (9 : Int) ≠ -1 := by
  refine ⟨by decide, by decide⟩

/-- C7: processing a block's terminating blank line after an exit was seen
continues the run in the teardown state: child terminated, both pipes
closed, timer disarmed, exit/limit flags reset, block number advanced by
one. -/
theorem c7_block_teardown_resets_state (s : RunState) (rest : List String)
    (h : s.sawExit = true) :
    runFrom s ("" :: rest) =
      runFrom { blockTeardown s with lineCount := s.lineCount + 1 } rest ∧
    (blockTeardown s).childAlive = false ∧
    (blockTeardown s).readOpen = false ∧
    (blockTeardown s).writeOpen = false ∧
    (blockTeardown s).timer = false ∧
    (blockTeardown s).sawExit = false ∧
    (blockTeardown s).sawLimit = false ∧
    (blockTeardown s).blockCount = s.blockCount + 1 := by
  refine ⟨?_, rfl, rfl, rfl, rfl, rfl, rfl, rfl⟩
  simp only [runFrom, stepLine, if_pos rfl, h, if_true]
  rfl

/-- Witness for C7. -/
theorem c7_block_teardown_resets_state_witness :
    sAfterExit.sawExit = true ∧
      (runFrom sAfterExit ("" :: []) =
        runFrom { blockTeardown sAfterExit with
          lineCount := sAfterExit.lineCount + 1 } [] ∧
      (blockTeardown sAfterExit).childAlive = false ∧
      (blockTeardown sAfterExit).readOpen = false ∧
      (blockTeardown sAfterExit).writeOpen = false ∧
      (blockTeardown sAfterExit).timer = false ∧
      (blockTeardown sAfterExit).sawExit = false ∧
      (blockTeardown sAfterExit).sawLimit = false ∧
      (blockTeardown sAfterExit).blockCount = sAfterExit.blockCount + 1) :=
  ⟨rfl, c7_block_teardown_resets_state sAfterExit [] rfl⟩

/-- C8 (amended): when the child's output pipe is at end-of-stream with no
buffered data, `want` takes the `NULL`-line path — `strcmp(NULL, …)` raises
`SIGSEGV` and the installed handler reports a command failure at the
current line with exit status 1; trailing unterminated data, by contrast,
is returned by `get_line` as a line and compared normally. -/
theorem c8_want_empty_stream_aborts (p : String) (e : Bool) (s : RunState)
    (rest : List String)
    (h₁ : s.previousBlock = s.blockCount) (h₂ : s.childOut = [])
    (h₃ : s.echo = false) :
    handle_want (some p) e [] =
        WantRes.segvAbort (if e then some "(null)" else none) ∧
      runFrom s ("want x" :: rest) =
        RunResult.done 1 s.output
          (some ("Test failed on line " ++ toString s.lineCount ++ ".")) := by
  constructor
  · simp [handle_want, get_line]
  · obtain ⟨bc, lc, se, sl, ec, pb, ca, ro, wo, tm, co, cst, cso, pc, sr, fa, fs, out⟩ := s
    simp only at h₁ h₂ h₃
    subst h₁ h₂ h₃
    simp [runFrom, stepLine, splitLine, handle_want, get_line, cmdFailMsg,
      ERR_COMMAND]

/-- Counterexample for C8 as stated: a child that writes `OK` and closes
its output without a line terminator — end-of-stream before any full line —
still satisfies `want OK`: the command passes instead of failing. -/
theorem c8_trailing_data_counterexample :
    handle_want (some "OK") false ['O', 'K'] = WantRes.pass none [] ∧
      '\n' ∉ ['O', 'K'] := by
  refine ⟨by decide, by decide⟩

/-- Witness for the amended C8. -/
theorem c8_want_empty_stream_aborts_witness :
    sWantEmpty.previousBlock = sWantEmpty.blockCount ∧
      sWantEmpty.childOut = [] ∧ sWantEmpty.echo = false ∧
      (handle_want (some "x") false [] =
          WantRes.segvAbort (if false then some "(null)" else none) ∧
        runFrom sWantEmpty ("want x" :: []) =
          RunResult.done 1 sWantEmpty.output
            (some ("Test failed on line " ++ toString sWantEmpty.lineCount ++ "."))) :=
  ⟨rfl, rfl, rfl, c8_want_empty_stream_aborts "x" false sWantEmpty [] rfl rfl rfl⟩

/-- C9 evidence (code bug): `handle_interactive` discards the results of
the forwarded sends, so with standard input `x / stop` and a failing input
pipe, the single forwarded send fails yet the handler reports success
(8, not -1). -/
theorem c9_interactive_ignores_send_failure :
    handle_interactive (some "stop") false ("x\nstop\n".data) =
        (8, [SendRes.fail], []) ∧
      (8 : Int) ≠ -1 := by
  refine ⟨by decide, by decide⟩

/-- C10: a blank line read while no block is open — at the very start of
the script or right after a block's terminating blank line — aborts with
the block-incomplete diagnostic naming the upcoming block and exit
status 2; blank lines are never skipped as separators. -/
theorem c10_blank_line_while_idle_aborts :
    (∀ (w : World) (rest : List String),
      runScript w ("" :: rest) =
        RunResult.done 2 [] (some "Block 1 ended without an exit.")) ∧
    (∀ (s : RunState) (rest : List String), s.sawExit = true →
      runFrom s ("" :: "" :: rest) =
        RunResult.done 2 s.output
          (some ("Block " ++ toString (s.blockCount + 1) ++
            " ended without an exit."))) := by
  constructor
  · intro w rest
    simp only [runScript, runFrom, stepLine, initState, blockFailMsg, ERR_BLOCK,
      if_pos rfl, Bool.false_eq_true, if_false]
    rfl
  · intro s rest h
    simp [runFrom, stepLine, h, blockTeardown, blockFailMsg, ERR_BLOCK]

/-- Witness for C10's second part (a blank line right after a completed
block). -/
theorem c10_blank_line_while_idle_aborts_witness :
    sAfterExit.sawExit = true ∧
      runFrom sAfterExit ("" :: "" :: []) =
        RunResult.done 2 sAfterExit.output
          (some ("Block " ++ toString (sAfterExit.blockCount + 1) ++
            " ended without an exit.")) :=
  ⟨rfl, c10_blank_line_while_idle_aborts.2 sAfterExit [] rfl⟩

end Suspect
